import Mathlib

/-!
Shallow embedding of the channel update protocol of `src/daemon/packets.c`
(data structures from `src/daemon/peer.h`).

External capabilities — SHA-256, the shachain revocation ladder, commitment
transaction building, signature checking and signing, and revocation hash
derivation — are injected through an explicit `Externals` record, mirroring
the capability injection of the specification (§6.2).  Theorems quantify over
every choice of these capabilities.

Functions declared in headers but implemented outside `src/` (`funding.c`,
`add_unacked` from `peer.c`) are modelled from the specification; their doc
comments say so explicitly.

Machine integers (`u64`, `size_t`) are modelled as `Nat`; in the C source the
only arithmetic on them is increments of small counters and the shachain index
`0xFFFFFFFFFFFFFFFF - commit_num`, none of which can overflow for values a
`u64` can hold.
-/

/-- The two sides of a channel, `enum channel_side` (`OURS` / `THEIRS`). -/
inductive channel_side : Type where
  | OURS : channel_side
  | THEIRS : channel_side
deriving DecidableEq

/-- The other side, the C `!side` used in `apply_changeset`. -/
def channel_side.other : channel_side → channel_side
  | .OURS => .THEIRS
  | .THEIRS => .OURS

/-- An absolute locktime with its discriminator (seconds | blocks). -/
inductive abs_locktime : Type where
  | seconds : Nat → abs_locktime
  | blocks : Nat → abs_locktime
deriving DecidableEq

/-- The `abs_locktime_is_seconds` test used by `accept_pkt_htlc_add`. -/
def abs_locktime_is_seconds : abs_locktime → Bool
  | .seconds _ => true
  | .blocks _ => false

/-- One HTLC, `struct channel_htlc`.  Hashes are abstracted as `Nat`. -/
structure channel_htlc : Type where
  msatoshis : Nat
  expiry : abs_locktime
  rhash : Nat
  id : Nat
deriving DecidableEq

/-- One side of a `struct channel_state`: its balance and offered HTLCs. -/
structure channel_state_side : Type where
  pay_msat : Nat
  htlcs : List channel_htlc
deriving DecidableEq

/-- A `struct channel_state` snapshot: the two sides (`side[OURS]` and
`side[THEIRS]`) and the monotonic `changes` counter. -/
structure channel_state : Type where
  sideOurs : channel_state_side
  sideTheirs : channel_state_side
  changes : Nat
deriving DecidableEq

/-- Indexing `cstate->side[s]`. -/
def channel_state.side (cs : channel_state) : channel_side → channel_state_side
  | .OURS => cs.sideOurs
  | .THEIRS => cs.sideTheirs

/-- Functional update of `cstate->side[s]`. -/
def channel_state.setSide (cs : channel_state) : channel_side → channel_state_side → channel_state
  | .OURS, s => { cs with sideOurs := s }
  | .THEIRS, s => { cs with sideTheirs := s }

/-- The staging change union `union htlc_staging` of `peer.h`. -/
inductive htlc_staging : Type where
  | add : channel_htlc → htlc_staging
  | fulfill : Nat → Nat → htlc_staging
  | fail : Nat → htlc_staging
deriving DecidableEq

/-- A `struct commit_info` from `peer.h`: previous commit (if any),
`commit_num`, `revocation_hash`, the `channel_state` snapshot, the built tx
(abstracted as `Nat`), the counterparty signature, the revocation preimage
once known, and the unacked staging changes.  The C struct is recursive
through the `prev` pointer, hence an inductive type with accessors. -/
inductive commit_info : Type where
  | mk : Option commit_info → Nat → Nat → channel_state → Nat →
         Option Nat → Option Nat → List htlc_staging → commit_info

def commit_info.prev : commit_info → Option commit_info
  | .mk p _ _ _ _ _ _ _ => p

def commit_info.commit_num : commit_info → Nat
  | .mk _ n _ _ _ _ _ _ => n

def commit_info.revocation_hash : commit_info → Nat
  | .mk _ _ h _ _ _ _ _ => h

def commit_info.cstate : commit_info → channel_state
  | .mk _ _ _ c _ _ _ _ => c

def commit_info.tx : commit_info → Nat
  | .mk _ _ _ _ t _ _ _ => t

def commit_info.sig : commit_info → Option Nat
  | .mk _ _ _ _ _ s _ _ => s

def commit_info.revocation_preimage : commit_info → Option Nat
  | .mk _ _ _ _ _ _ r _ => r

def commit_info.unacked_changes : commit_info → List htlc_staging
  | .mk _ _ _ _ _ _ _ u => u

def commit_info.withSig : commit_info → Option Nat → commit_info
  | .mk p n h c t _ r u, s => .mk p n h c t s r u

def commit_info.withPrev : commit_info → Option commit_info → commit_info
  | .mk _ n h c t s r u, p => .mk p n h c t s r u

def commit_info.withPreimage : commit_info → Option Nat → commit_info
  | .mk p n h c t s _ u, r => .mk p n h c t s r u

def commit_info.withUnacked : commit_info → List htlc_staging → commit_info
  | .mk p n h c t s r _, u => .mk p n h c t s r u

/-- The all-zero `channel_state` a `talz` allocation yields. -/
def empty_cstate : channel_state := ⟨⟨0, []⟩, ⟨0, []⟩, 0⟩

/-- `new_commit_info`: `talz` zero-initialises every field and installs an
empty `unacked_changes` array, so the first commitment has `commit_num = 0`
and no `prev`. -/
def new_commit_info : commit_info := .mk none 0 0 empty_cstate 0 none none []

/-- The per-side visible state `struct peer_visible_state` (the fields the
update path touches): `next_revocation_hash`, the commit chain tip `commit`,
and `staging_cstate`. -/
structure peer_visible_state : Type where
  next_revocation_hash : Nat
  commit : commit_info
  staging_cstate : channel_state

/-- The `struct peer` fields the update path touches: `local`, `remote`
(named `local_view` / `remote_view` since `local` is a Lean keyword) and the
shachain `their_preimages`, modelled as the list of (index, preimage) pairs
inserted so far. -/
structure peer : Type where
  local_view : peer_visible_state
  remote_view : peer_visible_state
  their_preimages : List (Nat × Nat)

/-- Wire message `UpdateAddHtlc`.  `expiry = none` models a locktime that
`proto_to_abs_locktime` refuses to convert. -/
structure UpdateAddHtlc : Type where
  id : Nat
  amount_msat : Nat
  r_hash : Nat
  expiry : Option abs_locktime
deriving DecidableEq

/-- Wire message `UpdateFulfillHtlc`. -/
structure UpdateFulfillHtlc : Type where
  id : Nat
  r : Nat
deriving DecidableEq

/-- Wire message `UpdateFailHtlc` (the reason blob is elided, as in source). -/
structure UpdateFailHtlc : Type where
  id : Nat
deriving DecidableEq

/-- Wire message `UpdateCommit`.  `sig = none` models a signature field that
`proto_to_signature` refuses to parse. -/
structure UpdateCommit : Type where
  sig : Option Nat
deriving DecidableEq

/-- Wire message `UpdateRevocation`. -/
structure UpdateRevocation : Type where
  revocation_preimage : Nat
  next_revocation_hash : Nat
deriving DecidableEq

/-- Wire message `OpenComplete` carries no fields. -/
inductive OpenComplete : Type where
  | mk : OpenComplete

/-- The externally supplied capabilities (§6.2): SHA-256, the ccan shachain
insertion, commitment transaction building, signature verification, signing,
and revocation hash derivation from the local secrets. -/
structure Externals : Type where
  sha : Nat → Nat
  shachain_add : List (Nat × Nat) → Nat → Nat → Option (List (Nat × Nat))
  create_commit_tx : channel_state → Nat → Nat
  check_tx_sig : Nat → Nat → Bool
  sign_commit : Nat → Nat
  get_revocation_hash : Nat → Nat

/-- The constant `0xFFFFFFFFFFFFFFFFL` of `accept_pkt_revocation`. -/
def MAX_U64 : Nat := 0xFFFFFFFFFFFFFFFF

/-- Modelled from the spec: `funding_htlc_by_id` lives in `funding.c`, which
is not under `src/`.  Per §3/§8 an HTLC is identified by `id` within the
offering side's list; the function returns its index (the C code returns
`-1`, here `none`, when absent). -/
def funding_htlc_by_id (cs : channel_state) (id : Nat) (side : channel_side) : Option Nat :=
  (cs.side side).htlcs.findIdx? (fun h => h.id == id)

/-- Modelled from the spec: `funding_add_htlc` lives in `funding.c`, which is
not under `src/`.  §4.1: deduct the amount from the offering side's balance,
append the HTLC, bump `changes`; fail (return `none`, the C `NULL`) when the
offering side cannot afford the amount.  The spec leaves `expected_fee`
abstract, so the fee term of the affordability rule is omitted. -/
def funding_add_htlc (cs : channel_state) (msat : Nat) (expiry : abs_locktime)
    (rhash id : Nat) (side : channel_side) : Option (channel_htlc × channel_state) :=
  let s := cs.side side
  if msat ≤ s.pay_msat then
    let h : channel_htlc := ⟨msat, expiry, rhash, id⟩
    some (h, { cs.setSide side ⟨s.pay_msat - msat, s.htlcs ++ [h]⟩ with changes := cs.changes + 1 })
  else none

/-- Modelled from the spec: `funding_fulfill_htlc` lives in `funding.c`,
which is not under `src/`.  §4.1: remove the indexed HTLC from the given side
and credit its amount to the receiver (the side that did not offer it),
bumping `changes`. -/
def funding_fulfill_htlc (cs : channel_state) (n : Nat) (side : channel_side) : channel_state :=
  let s := cs.side side
  match s.htlcs.get? n with
  | none => cs
  | some h =>
    let cs1 := cs.setSide side ⟨s.pay_msat, s.htlcs.eraseIdx n⟩
    let o := cs1.side side.other
    { cs1.setSide side.other ⟨o.pay_msat + h.msatoshis, o.htlcs⟩ with changes := cs.changes + 1 }

/-- Modelled from the spec: `funding_fail_htlc` lives in `funding.c`, which
is not under `src/`.  §4.1: remove the indexed HTLC and refund its amount to
the offering side, bumping `changes`. -/
def funding_fail_htlc (cs : channel_state) (n : Nat) (side : channel_side) : channel_state :=
  let s := cs.side side
  match s.htlcs.get? n with
  | none => cs
  | some h =>
    { cs.setSide side ⟨s.pay_msat + h.msatoshis, s.htlcs.eraseIdx n⟩ with changes := cs.changes + 1 }

/-- Modelled from the spec: `copy_funding` lives in `funding.c`, which is not
under `src/`.  §4.1: `copy(state)` is a logical clone, so on a value embedding
it is the identity. -/
def copy_funding (cs : channel_state) : channel_state := cs

/-- Modelled from the spec: `add_unacked` is declared in `peer.h` but defined
outside `src/`.  §3/§4.2: the staged change is appended to the current commit
tip's `unacked_changes` list of the given side view. -/
def add_unacked (v : peer_visible_state) (stage : htlc_staging) : peer_visible_state :=
  { v with commit := v.commit.withUnacked (v.commit.unacked_changes ++ [stage]) }

/-- Outcome of an `accept_pkt_*` handler: `NULL` return with the peer updated,
an error `Pkt` (carrying the peer as mutated up to that point), or a crash
(`fatal`, `abort`, failed `assert`, NULL dereference). -/
inductive AcceptResult : Type where
  | accepted : peer → AcceptResult
  | rejected : String → peer → AcceptResult
  | crash : AcceptResult

def AcceptResult.isAccepted : AcceptResult → Bool
  | .accepted _ => true
  | _ => false

def AcceptResult.acceptedState : AcceptResult → Option peer
  | .accepted p => some p
  | _ => none

def AcceptResult.rejectedMsg : AcceptResult → Option String
  | .rejected m _ => some m
  | _ => none

/-- Outcome of a `queue_pkt_*` sender: packet of type `α` queued with the peer
updated, or a crash (`fatal` / failed `assert`). -/
inductive QueueResult (α : Type) : Type where
  | sent : peer → α → QueueResult α
  | crash : QueueResult α

/-- `accept_pkt_open_complete` of `packets.c`: returns `NULL` unconditionally
and touches nothing. -/
def accept_pkt_open_complete (p : peer) (_pkt : OpenComplete) : AcceptResult :=
  .accepted p

/-- `accept_pkt_htlc_add` of `packets.c`: validate amount, expiry and its
variant, the 300-HTLC cap on the counterparty's offers in both staging
snapshots, id clashes in both staging snapshots, then add to
`local.staging_cstate` (failure means the amount is unaffordable) and append
the add to the local unacked changeset. -/
def accept_pkt_htlc_add (p : peer) (u : UpdateAddHtlc) : AcceptResult :=
  if u.amount_msat = 0 then .rejected "Invalid amount_msat" p
  else
    match u.expiry with
    | none => .rejected "Invalid HTLC expiry" p
    | some expiry =>
      if ¬ abs_locktime_is_seconds expiry then
        .rejected "HTLC expiry in blocks not supported!" p
      else if (p.remote_view.staging_cstate.side .THEIRS).htlcs.length = 300
           ∨ (p.local_view.staging_cstate.side .THEIRS).htlcs.length = 300 then
        .rejected "Too many HTLCs" p
      else if (funding_htlc_by_id p.remote_view.staging_cstate u.id .THEIRS).isSome then
        .rejected ("HTLC id " ++ toString u.id ++ " clashes for you") p
      else if (funding_htlc_by_id p.local_view.staging_cstate u.id .THEIRS).isSome then
        .rejected ("HTLC id " ++ toString u.id ++ " clashes for us") p
      else
        match funding_add_htlc p.local_view.staging_cstate u.amount_msat expiry u.r_hash u.id .THEIRS with
        | none =>
          .rejected ("Cannot afford " ++ toString u.amount_msat
                     ++ " milli-satoshis in your commitment tx") p
        | some (htlc, cs2) =>
          let lv := add_unacked { p.local_view with staging_cstate := cs2 } (.add htlc)
          .accepted { p with local_view := lv }

/-- `queue_pkt_htlc_add` of `packets.c`: add the HTLC to
`remote.staging_cstate` (a failure is `fatal`), append it to the remote
unacked changeset and emit the `UpdateAddHtlc`. -/
def queue_pkt_htlc_add (p : peer) (h : channel_htlc) : QueueResult UpdateAddHtlc :=
  let u : UpdateAddHtlc := ⟨h.id, h.msatoshis, h.rhash, some h.expiry⟩
  match funding_add_htlc p.remote_view.staging_cstate h.msatoshis h.expiry h.rhash h.id .OURS with
  | none => .crash
  | some (_, cs2) =>
    let rv := add_unacked { p.remote_view with staging_cstate := cs2 } (.add h)
    .sent { p with remote_view := rv } u

/-- `find_commited_htlc` of `packets.c`: the id must name an HTLC we offered
in the current commitment (`local.commit->cstate`), and must still be present
in `local.staging_cstate`. -/
def find_commited_htlc (p : peer) (id : Nat) : Except String Nat :=
  match funding_htlc_by_id p.local_view.commit.cstate id .OURS with
  | none => .error ("Did not find HTLC " ++ toString id)
  | some _ =>
    match funding_htlc_by_id p.local_view.staging_cstate id .OURS with
    | none => .error ("Already removed HTLC " ++ toString id)
    | some n => .ok n

/-- `accept_pkt_htlc_fail` of `packets.c`. -/
def accept_pkt_htlc_fail (p : peer) (f : UpdateFailHtlc) : AcceptResult :=
  match find_commited_htlc p f.id with
  | .error m => .rejected m p
  | .ok n =>
    let cs2 := funding_fail_htlc p.local_view.staging_cstate n .OURS
    let lv := add_unacked { p.local_view with staging_cstate := cs2 } (.fail f.id)
    .accepted { p with local_view := lv }

/-- `accept_pkt_htlc_fulfill` of `packets.c`: the preimage must solve the
rhash puzzle of the staged HTLC before the fulfill is applied. -/
def accept_pkt_htlc_fulfill (E : Externals) (p : peer) (f : UpdateFulfillHtlc) : AcceptResult :=
  match find_commited_htlc p f.id with
  | .error m => .rejected m p
  | .ok n =>
    match (p.local_view.staging_cstate.side .OURS).htlcs.get? n with
    | none => .crash
    | some h =>
      if E.sha f.r = h.rhash then
        let cs2 := funding_fulfill_htlc p.local_view.staging_cstate n .OURS
        let lv := add_unacked { p.local_view with staging_cstate := cs2 } (.fulfill f.id f.r)
        .accepted { p with local_view := lv }
      else .rejected ("Invalid r for " ++ toString f.id) p

/-- `check_and_save_commit_sig` of `packets.c`: parse the proto signature
(`Malformed signature` on failure) and verify it over the commit tx
(`Bad signature` on failure); on success store it in the commit info. -/
def check_and_save_commit_sig (E : Externals) (ci : commit_info) (pb : Option Nat) :
    Except String commit_info :=
  match pb with
  | none => .error "Malformed signature"
  | some s =>
    if E.check_tx_sig ci.tx s then .ok (ci.withSig (some s))
    else .error "Bad signature"

/-- `accept_pkt_commit` of `packets.c`: build the candidate next local commit
from `local.staging_cstate`, refuse empty commits, check the signature, and
only then advance `local.commit` and draw the next revocation hash. -/
def accept_pkt_commit (E : Externals) (p : peer) (c : UpdateCommit) : AcceptResult :=
  let prev := p.local_view.commit
  let cstate := copy_funding p.local_view.staging_cstate
  let tx := E.create_commit_tx cstate p.local_view.next_revocation_hash
  let ci : commit_info :=
    .mk (some prev) (prev.commit_num + 1) p.local_view.next_revocation_hash cstate tx none none []
  if prev.cstate.changes = ci.cstate.changes then
    .rejected "Empty commit" p
  else
    match check_and_save_commit_sig E ci c.sig with
    | .error m => .rejected m p
    | .ok ci2 =>
      .accepted { p with local_view := { p.local_view with
          commit := ci2,
          next_revocation_hash := E.get_revocation_hash (ci2.commit_num + 1) } }

/-- `queue_pkt_commit` of `packets.c`: build the candidate next remote commit
from `remote.staging_cstate`; the `assert` fires (crash) on an empty commit;
otherwise sign, advance `remote.commit` and emit the signature. -/
def queue_pkt_commit (E : Externals) (p : peer) : QueueResult Nat :=
  let prev := p.remote_view.commit
  let cstate := copy_funding p.remote_view.staging_cstate
  let tx := E.create_commit_tx cstate p.remote_view.next_revocation_hash
  if prev.cstate.changes = cstate.changes then .crash
  else
    let s := E.sign_commit tx
    let ci : commit_info :=
      .mk (some prev) (prev.commit_num + 1) p.remote_view.next_revocation_hash cstate tx (some s) none []
    .sent { p with remote_view := { p.remote_view with commit := ci } } s

/-- One step of `apply_changeset` of `packets.c`; `none` models the `fatal`
calls on duplicate or missing ids. -/
def apply_change (cs : channel_state) (side : channel_side) : htlc_staging → Option channel_state
  | .add h =>
    if (funding_htlc_by_id cs h.id side).isSome then none
    else
      match funding_add_htlc cs h.msatoshis h.expiry h.rhash h.id side with
      | none => none
      | some (_, cs2) => some cs2
  | .fail i =>
    match funding_htlc_by_id cs i side.other with
    | none => none
    | some n => some (funding_fail_htlc cs n side.other)
  | .fulfill i _ =>
    match funding_htlc_by_id cs i side.other with
    | none => none
    | some n => some (funding_fulfill_htlc cs n side.other)

/-- `apply_changeset` of `packets.c`, folded over the change list. -/
def apply_changeset (cs : channel_state) (side : channel_side) : List htlc_staging → Option channel_state
  | [] => some cs
  | c :: rest =>
    match apply_change cs side c with
    | none => none
    | some cs2 => apply_changeset cs2 side rest

/-- `accept_pkt_revocation` of `packets.c`: check the preimage against
`remote.commit->prev`, record it in the commit info, insert it into the
shachain at `0xFFFFFFFFFFFFFFFF - commit_num`, record the next revocation
hash, apply the unacked changes to `local.staging_cstate`, and drop them. -/
def accept_pkt_revocation (E : Externals) (p : peer) (r : UpdateRevocation) : AcceptResult :=
  match p.remote_view.commit.prev with
  | none => .crash
  | some ci =>
    if E.sha r.revocation_preimage ≠ ci.revocation_hash then
      .rejected "complete preimage incorrect" p
    else if ci.revocation_preimage.isSome then .crash
    else
      let ci1 := ci.withPreimage (some r.revocation_preimage)
      let p1 : peer := { p with remote_view :=
        { p.remote_view with commit := p.remote_view.commit.withPrev (some ci1) } }
      match E.shachain_add p.their_preimages (MAX_U64 - ci.commit_num) r.revocation_preimage with
      | none => .rejected "preimage not next in shachain" p1
      | some ladder =>
        match apply_changeset p1.local_view.staging_cstate .OURS ci.unacked_changes with
        | none => .crash
        | some cs2 =>
          let ci2 := ci1.withUnacked []
          .accepted { p1 with
            their_preimages := ladder,
            remote_view := { p1.remote_view with
              commit := p1.remote_view.commit.withPrev (some ci2),
              next_revocation_hash := r.next_revocation_hash },
            local_view := { p1.local_view with staging_cstate := cs2 } }

/-- The commit-chain shape (§8 invariant 3): the first commitment carries
`commit_num = 0` and every successor increments its predecessor by one. -/
def commit_chain_ok : commit_info → Bool
  | .mk none n _ _ _ _ _ _ => n == 0
  | .mk (some pr) n _ _ _ _ _ _ => (n == pr.commit_num + 1) && commit_chain_ok pr

/-- Feeding a sequence of `UpdateAddHtlc` packets through
`accept_pkt_htlc_add`, stopping at the first outcome that is not `accepted`. -/
def run_htlc_adds (p : peer) : List UpdateAddHtlc → Option peer
  | [] => some p
  | u :: us =>
    match accept_pkt_htlc_add p u with
    | .accepted q => run_htlc_adds q us
    | _ => none

/-- Concrete capabilities for evaluating the revocation path: the hash of `n`
is `n + 1` and the shachain simply records every insertion. -/
def exRevExternals : Externals :=
  ⟨fun n => n + 1, fun l i pre => some ((i, pre) :: l),
   fun _ _ => 0, fun _ _ => true, fun _ => 0, fun _ => 0⟩

/-- A concrete revoked commitment whose revocation hash is `42`. -/
def exRevCommitPrev : commit_info := .mk none 0 42 empty_cstate 0 none none []

/-- A concrete remote chain tip on top of `exRevCommitPrev`. -/
def exRevCommitTip : commit_info := .mk (some exRevCommitPrev) 1 7 empty_cstate 0 (some 5) none []

/-- A concrete peer whose remote commit chain is `exRevCommitTip`. -/
def exRevPeer : peer :=
  ⟨⟨0, new_commit_info, empty_cstate⟩, ⟨0, exRevCommitTip, empty_cstate⟩, []⟩

/-- A staging snapshot whose `changes` counter is `1`. -/
def exCommitStaging : channel_state := ⟨⟨0, []⟩, ⟨0, []⟩, 1⟩

/-- A concrete peer with one staged change on each side, ready to commit. -/
def exCommitPeer : peer :=
  ⟨⟨0, new_commit_info, exCommitStaging⟩, ⟨0, new_commit_info, exCommitStaging⟩, []⟩

/-- The local commit tip `accept_pkt_commit` builds from `exCommitPeer` with
signature `3`. -/
def exCommitResTip : commit_info := .mk (some new_commit_info) 1 0 exCommitStaging 0 (some 3) none []

/-- The peer state after `accept_pkt_commit` succeeds on `exCommitPeer`. -/
def exCommitResPeer : peer :=
  ⟨⟨0, exCommitResTip, exCommitStaging⟩, ⟨0, new_commit_info, exCommitStaging⟩, []⟩

/-- A concrete peer with no staged changes: any `UpdateCommit` is empty. -/
def exEmptyCommitPeer : peer :=
  ⟨⟨0, new_commit_info, empty_cstate⟩, ⟨0, new_commit_info, empty_cstate⟩, []⟩

/-- A concrete staging snapshot holding one HTLC we offered (id 3). -/
def exFulfillStaging : channel_state := ⟨⟨0, [⟨100, .seconds 5, 9, 3⟩]⟩, ⟨0, []⟩, 1⟩

/-- A peer whose staging knows HTLC 3 but whose committed state does not. -/
def exFulfillPeer : peer :=
  ⟨⟨0, new_commit_info, exFulfillStaging⟩, ⟨0, new_commit_info, empty_cstate⟩, []⟩

/-- Exactly 300 counterparty-offered HTLCs. -/
def exCapHtlcs : List channel_htlc := List.replicate 300 ⟨1, .seconds 1, 0, 0⟩

/-- A peer whose local staging already holds 300 counterparty HTLCs. -/
def exCapPeer : peer :=
  ⟨⟨0, new_commit_info, ⟨⟨0, []⟩, ⟨0, exCapHtlcs⟩, 0⟩⟩, ⟨0, new_commit_info, empty_cstate⟩, []⟩

/-- A staging snapshot where the counterparty can afford new HTLCs. -/
def exSeqStaging : channel_state := ⟨⟨0, []⟩, ⟨1000, []⟩, 0⟩

/-- A fresh peer with counterparty balance available on both sides. -/
def exSeqPeer : peer :=
  ⟨⟨0, new_commit_info, exSeqStaging⟩, ⟨0, new_commit_info, exSeqStaging⟩, []⟩

/-- An incoming add with id 7. -/
def exSeqAdd7 : UpdateAddHtlc := ⟨7, 5, 9, some (.seconds 100)⟩

/-- An incoming add with id 5, lower than the previously accepted 7. -/
def exSeqAdd5 : UpdateAddHtlc := ⟨5, 5, 9, some (.seconds 100)⟩

/-- A remote staging snapshot already holding a counterparty HTLC with id 7. -/
def exClashStaging : channel_state := ⟨⟨0, []⟩, ⟨1000, [⟨5, .seconds 1, 0, 7⟩]⟩, 0⟩

/-- A peer whose remote staging holds counterparty HTLC id 7. -/
def exClashPeer : peer :=
  ⟨⟨0, new_commit_info, exSeqStaging⟩, ⟨0, new_commit_info, exClashStaging⟩, []⟩

/-- A local staging snapshot where the counterparty holds 1000 msat. -/
def exGapLocalStaging : channel_state := ⟨⟨0, []⟩, ⟨1000, []⟩, 0⟩

/-- A remote staging snapshot where the counterparty holds nothing. -/
def exGapRemoteStaging : channel_state := ⟨⟨0, []⟩, ⟨0, []⟩, 0⟩

/-- A peer whose two staging snapshots have drifted apart: the incoming add
is affordable in the local commitment but not in the remote one. -/
def exGapPeer : peer :=
  ⟨⟨0, new_commit_info, exGapLocalStaging⟩, ⟨0, new_commit_info, exGapRemoteStaging⟩, []⟩

/-- An incoming add of 500 msat. -/
def exGapAdd : UpdateAddHtlc := ⟨1, 500, 9, some (.seconds 100)⟩

/-- The HTLC `accept_pkt_htlc_add` builds from `exGapAdd`. -/
def exGapHtlc : channel_htlc := ⟨500, .seconds 100, 9, 1⟩

/-- The peer state after `accept_pkt_htlc_add` accepts `exGapAdd`. -/
def exGapResPeer : peer :=
  ⟨⟨0, .mk none 0 0 empty_cstate 0 none none [.add exGapHtlc], ⟨⟨0, []⟩, ⟨500, [exGapHtlc]⟩, 1⟩⟩,
   ⟨0, new_commit_info, exGapRemoteStaging⟩, []⟩

/-- C10: `accept_pkt_open_complete` accepts unconditionally: for every peer
state and every `OpenComplete` packet it returns success with the peer state
untouched — no validation, no mutation, no error packet. -/
theorem accept_pkt_open_complete_unconditional (p : peer) (pkt : OpenComplete) :
    accept_pkt_open_complete p pkt = .accepted p := rfl

/-- C1: `accept_pkt_revocation` rejects with the error
"complete preimage incorrect" exactly when the SHA-256 of the supplied
`revocation_preimage` differs from the `revocation_hash` of
`remote.commit->prev`; on that rejection the peer state is returned
unchanged, so in particular the preimage is not recorded. -/
theorem accept_pkt_revocation_bad_preimage (E : Externals) (p : peer)
    (r : UpdateRevocation) (ci : commit_info)
    (hprev : p.remote_view.commit.prev = some ci) :
    (E.sha r.revocation_preimage ≠ ci.revocation_hash →
      accept_pkt_revocation E p r = .rejected "complete preimage incorrect" p)
    ∧ (E.sha r.revocation_preimage = ci.revocation_hash →
      ∀ q, accept_pkt_revocation E p r ≠ .rejected "complete preimage incorrect" q) := by
  constructor
  · intro hne
    unfold accept_pkt_revocation
    simp only [hprev]
    rw [if_pos hne]
  · intro heq q hcon
    unfold accept_pkt_revocation at hcon
    simp only [hprev] at hcon
    rw [if_neg (by simp [heq])] at hcon
    by_cases hpre : ci.revocation_preimage.isSome = true
    · rw [if_pos hpre] at hcon
      exact AcceptResult.noConfusion hcon
    · rw [if_neg hpre] at hcon
      cases hsc : E.shachain_add p.their_preimages (MAX_U64 - ci.commit_num)
          r.revocation_preimage with
      | none =>
        rw [hsc] at hcon
        simp only [AcceptResult.rejected.injEq] at hcon
        exact absurd hcon.1 (by decide)
      | some l =>
        rw [hsc] at hcon
        cases hap : apply_changeset p.local_view.staging_cstate .OURS ci.unacked_changes with
        | none =>
          rw [hap] at hcon
          exact AcceptResult.noConfusion hcon
        | some cs2 =>
          rw [hap] at hcon
          exact AcceptResult.noConfusion hcon

/-- Witness for C1 at a concrete input: hashing the preimage `10` gives `11`,
not the expected `42`, so the packet is rejected and the peer unchanged. -/
theorem accept_pkt_revocation_bad_preimage_witness :
    accept_pkt_revocation exRevExternals exRevPeer ⟨10, 77⟩
      = .rejected "complete preimage incorrect" exRevPeer :=
  (accept_pkt_revocation_bad_preimage exRevExternals exRevPeer ⟨10, 77⟩
    exRevCommitPrev rfl).1 (by decide)

/-- C2: once the preimage check passes, `accept_pkt_revocation` inserts the
preimage into the revocation ladder at index `MAX_U64 - commit_num` of the
revoked commit; when the ladder's consistency check fails the packet is
rejected with "preimage not next in shachain", and otherwise the accepted
state carries the updated ladder. -/
theorem accept_pkt_revocation_shachain_store (E : Externals) (p : peer)
    (r : UpdateRevocation) (ci : commit_info)
    (hprev : p.remote_view.commit.prev = some ci)
    (hpre : E.sha r.revocation_preimage = ci.revocation_hash)
    (hnone : ci.revocation_preimage = none)
    (hun : ci.unacked_changes = []) :
    (E.shachain_add p.their_preimages (MAX_U64 - ci.commit_num) r.revocation_preimage = none →
      (accept_pkt_revocation E p r).rejectedMsg = some "preimage not next in shachain")
    ∧ (∀ l, E.shachain_add p.their_preimages (MAX_U64 - ci.commit_num) r.revocation_preimage = some l →
      Option.map peer.their_preimages (accept_pkt_revocation E p r).acceptedState = some l) := by
  constructor
  · intro hsc
    unfold accept_pkt_revocation
    simp only [hprev]
    rw [if_neg (by simp [hpre])]
    rw [if_neg (by simp [hnone])]
    rw [hsc]
    rfl
  · intro l hsc
    unfold accept_pkt_revocation
    simp only [hprev]
    rw [if_neg (by simp [hpre])]
    rw [if_neg (by simp [hnone])]
    rw [hsc, hun]
    rfl

/-- Witness for C2 at a concrete input: the preimage `41` hashes to the
expected `42`, the revoked commit has `commit_num = 0`, and the accepted
state's ladder holds the preimage at index `MAX_U64`. -/
theorem accept_pkt_revocation_shachain_store_witness :
    Option.map peer.their_preimages
      (accept_pkt_revocation exRevExternals exRevPeer ⟨41, 77⟩).acceptedState
      = some [(MAX_U64, 41)] :=
  (accept_pkt_revocation_shachain_store exRevExternals exRevPeer ⟨41, 77⟩
    exRevCommitPrev rfl (by decide) rfl rfl).2 [(MAX_U64, 41)] (by decide)

/-- Storing a signature does not change the chain structure fields. -/
theorem withSig_prev (ci : commit_info) (s : Option Nat) : (ci.withSig s).prev = ci.prev := by
  cases ci
  rfl

theorem withSig_commit_num (ci : commit_info) (s : Option Nat) :
    (ci.withSig s).commit_num = ci.commit_num := by
  cases ci
  rfl

theorem withSig_cstate (ci : commit_info) (s : Option Nat) : (ci.withSig s).cstate = ci.cstate := by
  cases ci
  rfl

theorem commit_chain_ok_withSig (ci : commit_info) (s : Option Nat) :
    commit_chain_ok (ci.withSig s) = commit_chain_ok ci := by
  cases ci with
  | mk pr n h c t sg r u => cases pr <;> rfl

/-- A successful `check_and_save_commit_sig` returns its input commit info
with only the signature filled in. -/
theorem check_and_save_commit_sig_shape (E : Externals) (ci ci2 : commit_info) (pb : Option Nat)
    (h : check_and_save_commit_sig E ci pb = .ok ci2) : ∃ s, ci2 = ci.withSig (some s) := by
  unfold check_and_save_commit_sig at h
  cases pb with
  | none => exact Except.noConfusion h
  | some s =>
    simp only [] at h
    split at h
    · injection h with h2
      exact ⟨s, h2.symm⟩
    · exact Except.noConfusion h

/-- C9: if `accept_pkt_commit` returns an error (empty commit, malformed or
bad signature) the peer is returned unchanged — `local.commit` still points
to the previous tip, `local.next_revocation_hash` keeps its prior value —
and on success the tip gains the old tip as `prev` while the next revocation
hash is drawn for the new tip's successor. -/
theorem accept_pkt_commit_error_no_state_change (E : Externals) (p : peer) (c : UpdateCommit) :
    (∀ m q, accept_pkt_commit E p c = .rejected m q → q = p)
    ∧ (∀ q, accept_pkt_commit E p c = .accepted q →
        q.local_view.commit.prev = some p.local_view.commit
        ∧ q.local_view.next_revocation_hash
            = E.get_revocation_hash (p.local_view.commit.commit_num + 2)) := by
  constructor
  · intro m q h
    unfold accept_pkt_commit at h
    dsimp only at h
    split at h
    · injection h with hm hq
      exact hq.symm
    · split at h
      · injection h with hm hq
        exact hq.symm
      · exact AcceptResult.noConfusion h
  · intro q h
    unfold accept_pkt_commit at h
    dsimp only at h
    split at h
    · exact AcceptResult.noConfusion h
    · split at h
      · exact AcceptResult.noConfusion h
      · next ci2 hok =>
        obtain ⟨s, rfl⟩ := check_and_save_commit_sig_shape _ _ _ _ hok
        injection h with hq
        subst hq
        constructor
        · rw [withSig_prev]
          rfl
        · rw [withSig_commit_num]
          rfl

/-- Witness for C9 at a concrete input: a commit with no new changes is
rejected and the peer state is returned unchanged. -/
theorem accept_pkt_commit_error_no_state_change_witness :
    exEmptyCommitPeer = exEmptyCommitPeer :=
  (accept_pkt_commit_error_no_state_change exRevExternals exEmptyCommitPeer
    ⟨some 3⟩).1 "Empty commit" exEmptyCommitPeer (by rfl)

/-- C4: an `UpdateCommit` carrying no new changes is neither accepted nor
sent: `accept_pkt_commit` rejects with "Empty commit" when the staged
`changes` counter equals the committed one, and a commit emitted by
`queue_pkt_commit` always carries a `changes` counter different from — and,
as the counter is monotonic, strictly above — the previous tip's, while equal
counters make `queue_pkt_commit` crash on its assert instead of sending. -/
theorem update_commit_never_empty (E : Externals) (p : peer) (c : UpdateCommit) :
    (p.local_view.staging_cstate.changes = p.local_view.commit.cstate.changes →
      accept_pkt_commit E p c = .rejected "Empty commit" p)
    ∧ (∀ q s, queue_pkt_commit E p = .sent q s →
        q.remote_view.commit.cstate.changes = p.remote_view.staging_cstate.changes
        ∧ p.remote_view.commit.cstate.changes ≠ p.remote_view.staging_cstate.changes
        ∧ (p.remote_view.commit.cstate.changes ≤ p.remote_view.staging_cstate.changes →
            p.remote_view.commit.cstate.changes < q.remote_view.commit.cstate.changes))
    ∧ (p.remote_view.staging_cstate.changes = p.remote_view.commit.cstate.changes →
        queue_pkt_commit E p = .crash) := by
  refine ⟨?_, ?_, ?_⟩
  · intro h
    unfold accept_pkt_commit
    dsimp only
    split
    · rfl
    · next hne => exact absurd h.symm hne
  · intro q s h
    unfold queue_pkt_commit at h
    dsimp only [copy_funding] at h
    split at h
    · exact QueueResult.noConfusion h
    · next hne =>
      injection h with hq hs
      subst hq
      refine ⟨rfl, fun heq => hne heq, fun hle => ?_⟩
      refine lt_of_le_of_ne hle ?_
      intro heq
      exact hne heq
  · intro h
    unfold queue_pkt_commit
    dsimp only
    split
    · rfl
    · next hne => exact absurd h.symm hne

/-- Witness for C4 at a concrete input: with `changes` still at its committed
value, the incoming commit is rejected as empty. -/
theorem update_commit_never_empty_witness :
    accept_pkt_commit exRevExternals exEmptyCommitPeer ⟨some 3⟩
      = .rejected "Empty commit" exEmptyCommitPeer :=
  (update_commit_never_empty exRevExternals exEmptyCommitPeer ⟨some 3⟩).1 (by rfl)

/-- C8: the first commitment (from `new_commit_info`) carries
`commit_num = 0` and no predecessor, and both `accept_pkt_commit` and
`queue_pkt_commit` extend the chain with `prev` pointing at the old tip and
`commit_num` incremented by one, preserving the chain invariant. -/
theorem commit_num_chain_invariant (E : Externals) (p : peer) (c : UpdateCommit) :
    (new_commit_info.commit_num = 0 ∧ new_commit_info.prev = none)
    ∧ (∀ q, accept_pkt_commit E p c = .accepted q →
        q.local_view.commit.prev = some p.local_view.commit
        ∧ q.local_view.commit.commit_num = p.local_view.commit.commit_num + 1
        ∧ (commit_chain_ok p.local_view.commit = true →
            commit_chain_ok q.local_view.commit = true))
    ∧ (∀ q s, queue_pkt_commit E p = .sent q s →
        q.remote_view.commit.prev = some p.remote_view.commit
        ∧ q.remote_view.commit.commit_num = p.remote_view.commit.commit_num + 1
        ∧ (commit_chain_ok p.remote_view.commit = true →
            commit_chain_ok q.remote_view.commit = true)) := by
  refine ⟨⟨rfl, rfl⟩, ?_, ?_⟩
  · intro q h
    unfold accept_pkt_commit at h
    dsimp only at h
    split at h
    · exact AcceptResult.noConfusion h
    · split at h
      · exact AcceptResult.noConfusion h
      · next ci2 hok =>
        obtain ⟨s, rfl⟩ := check_and_save_commit_sig_shape _ _ _ _ hok
        injection h with hq
        subst hq
        refine ⟨by rw [withSig_prev]; rfl, by rw [withSig_commit_num]; rfl, ?_⟩
        intro hok2
        simp only [commit_chain_ok_withSig]
        simp [commit_chain_ok, commit_info.commit_num, hok2]
  · intro q s h
    unfold queue_pkt_commit at h
    dsimp only at h
    split at h
    · exact QueueResult.noConfusion h
    · injection h with hq hs
      subst hq
      refine ⟨rfl, rfl, ?_⟩
      intro hok2
      simp [commit_chain_ok, commit_info.commit_num, hok2]

/-- Witness for C8 at a concrete input: a successful `accept_pkt_commit` on a
fresh chain yields a tip with `prev` the old tip, `commit_num` one higher,
and an intact chain invariant. -/
theorem commit_num_chain_invariant_witness :
    exCommitResPeer.local_view.commit.prev = some exCommitPeer.local_view.commit
    ∧ exCommitResPeer.local_view.commit.commit_num
        = exCommitPeer.local_view.commit.commit_num + 1
    ∧ (commit_chain_ok exCommitPeer.local_view.commit = true →
        commit_chain_ok exCommitResPeer.local_view.commit = true) :=
  (commit_num_chain_invariant exRevExternals exCommitPeer ⟨some 3⟩).2.1
    exCommitResPeer (by rfl)

/-- Updating a side leaves the snapshot's record for that side as written. -/
theorem side_setSide_same (cs : channel_state) (s : channel_side) (v : channel_state_side) :
    (cs.setSide s v).side s = v := by
  cases s <;> rfl

/-- `add_unacked` touches the commit tip only, never the staging snapshot. -/
theorem add_unacked_staging (v : peer_visible_state) (s : htlc_staging) :
    (add_unacked v s).staging_cstate = v.staging_cstate := rfl

/-- A successful `funding_add_htlc` grows the offering side's HTLC list by
exactly one. -/
theorem funding_add_htlc_theirs_len (cs : channel_state) (msat : Nat) (e : abs_locktime)
    (rh i : Nat) (h : channel_htlc) (cs2 : channel_state)
    (heq : funding_add_htlc cs msat e rh i .THEIRS = some (h, cs2)) :
    (cs2.side .THEIRS).htlcs.length = (cs.side .THEIRS).htlcs.length + 1 := by
  unfold funding_add_htlc at heq
  dsimp only at heq
  split at heq
  · injection heq with hpair
    injection hpair with hfst hsnd
    subst hsnd
    simp [channel_state.side, channel_state.setSide]
  · exact Option.noConfusion heq

/-- C7: `accept_pkt_htlc_fulfill` and `accept_pkt_htlc_fail` reject — leaving
the peer unchanged — whenever the referenced id names no HTLC offered by us
in the current committed state `local.commit->cstate`; the hypothesis says
nothing about staging, so presence merely in staging does not help. -/
theorem fulfill_fail_require_committed_htlc (E : Externals) (p : peer) (id r : Nat)
    (h : funding_htlc_by_id p.local_view.commit.cstate id .OURS = none) :
    accept_pkt_htlc_fulfill E p ⟨id, r⟩
      = .rejected ("Did not find HTLC " ++ toString id) p
    ∧ accept_pkt_htlc_fail p ⟨id⟩
      = .rejected ("Did not find HTLC " ++ toString id) p := by
  have hf : find_commited_htlc p id = .error ("Did not find HTLC " ++ toString id) := by
    unfold find_commited_htlc
    simp only [h]
  constructor
  · unfold accept_pkt_htlc_fulfill
    dsimp only
    simp only [hf]
  · unfold accept_pkt_htlc_fail
    dsimp only
    simp only [hf]

/-- Witness for C7 at a concrete input: HTLC 3 sits in the staging snapshot
but not in the committed state, and both handlers reject it. -/
theorem fulfill_fail_require_committed_htlc_witness :
    accept_pkt_htlc_fulfill exRevExternals exFulfillPeer ⟨3, 4⟩
      = .rejected ("Did not find HTLC " ++ toString 3) exFulfillPeer
    ∧ accept_pkt_htlc_fail exFulfillPeer ⟨3⟩
      = .rejected ("Did not find HTLC " ++ toString 3) exFulfillPeer :=
  fulfill_fail_require_committed_htlc exRevExternals exFulfillPeer 3 4 (by rfl)

/-- C5: an otherwise valid add is rejected with "Too many HTLCs" whenever the
counterparty already offers 300 HTLCs in either staging snapshot, and an
accepted add keeps the counterparty's offered count within 300 in the local
staging snapshot while never touching the remote one. -/
theorem accept_pkt_htlc_add_cap (p : peer) (u : UpdateAddHtlc) (t : Nat)
    (h1 : u.amount_msat ≠ 0)
    (h2 : u.expiry = some (.seconds t)) :
    ((p.remote_view.staging_cstate.side .THEIRS).htlcs.length = 300
      ∨ (p.local_view.staging_cstate.side .THEIRS).htlcs.length = 300 →
      accept_pkt_htlc_add p u = .rejected "Too many HTLCs" p)
    ∧ (∀ q, accept_pkt_htlc_add p u = .accepted q →
        ((p.local_view.staging_cstate.side .THEIRS).htlcs.length ≤ 300 →
          (q.local_view.staging_cstate.side .THEIRS).htlcs.length ≤ 300)
        ∧ (q.remote_view.staging_cstate.side .THEIRS).htlcs.length
            = (p.remote_view.staging_cstate.side .THEIRS).htlcs.length) := by
  constructor
  · intro hcap
    unfold accept_pkt_htlc_add
    rw [if_neg h1]
    simp only [h2]
    rw [if_neg (by simp [abs_locktime_is_seconds])]
    rw [if_pos hcap]
  · intro q h
    unfold accept_pkt_htlc_add at h
    split at h
    · exact AcceptResult.noConfusion h
    · split at h
      · exact AcceptResult.noConfusion h
      · split at h
        · exact AcceptResult.noConfusion h
        · split at h
          · exact AcceptResult.noConfusion h
          · next hcap =>
            split at h
            · exact AcceptResult.noConfusion h
            · split at h
              · exact AcceptResult.noConfusion h
              · split at h
                · exact AcceptResult.noConfusion h
                · next htlc cs2 hadd =>
                  injection h with hq
                  have hlen := funding_add_htlc_theirs_len _ _ _ _ _ _ _ hadd
                  have hq2 : q.local_view.staging_cstate = cs2 := by
                    rw [← hq]
                    rfl
                  have hq3 : q.remote_view = p.remote_view := by
                    rw [← hq]
                  constructor
                  · intro hle
                    have hne : (p.local_view.staging_cstate.side .THEIRS).htlcs.length ≠ 300 := by
                      intro hx
                      exact hcap (Or.inr hx)
                    rw [hq2, hlen]
                    omega
                  · rw [hq3]

set_option maxRecDepth 4000 in
/-- Witness for C5 at a concrete input: with 300 counterparty HTLCs already
staged locally, the 301st add is rejected. -/
theorem accept_pkt_htlc_add_cap_witness :
    accept_pkt_htlc_add exCapPeer ⟨7, 5, 9, some (.seconds 100)⟩
      = .rejected "Too many HTLCs" exCapPeer :=
  (accept_pkt_htlc_add_cap exCapPeer ⟨7, 5, 9, some (.seconds 100)⟩ 100
    (by decide) rfl).1 (Or.inr (by rfl))

/-- Counterexample to C6 as stated: starting from a fresh channel, an add
with id 7 and then an add with the smaller id 5 are both accepted by
`accept_pkt_htlc_add`, so ids of accepted adds need not be strictly
increasing. -/
theorem htlc_add_id_monotonicity_cex :
    exSeqAdd5.id < exSeqAdd7.id
    ∧ (run_htlc_adds exSeqPeer [exSeqAdd7, exSeqAdd5]).isSome = true := by
  constructor
  · decide
  · rfl

/-- C6 as amended: `accept_pkt_htlc_add` enforces only id uniqueness within
the currently staged commitments — an otherwise valid add is rejected with
an id-clash error exactly when its id equals a counterparty HTLC already in
the remote (first checked) or local staging snapshot; with no such clash the
packet is accepted or rejected only for affordability. -/
theorem accept_pkt_htlc_add_id_clash_only (p : peer) (u : UpdateAddHtlc) (t : Nat)
    (h1 : u.amount_msat ≠ 0)
    (h2 : u.expiry = some (.seconds t))
    (h3 : ¬ ((p.remote_view.staging_cstate.side .THEIRS).htlcs.length = 300
          ∨ (p.local_view.staging_cstate.side .THEIRS).htlcs.length = 300)) :
    ((funding_htlc_by_id p.remote_view.staging_cstate u.id .THEIRS).isSome = true →
      accept_pkt_htlc_add p u
        = .rejected ("HTLC id " ++ toString u.id ++ " clashes for you") p)
    ∧ (funding_htlc_by_id p.remote_view.staging_cstate u.id .THEIRS = none →
      (funding_htlc_by_id p.local_view.staging_cstate u.id .THEIRS).isSome = true →
      accept_pkt_htlc_add p u
        = .rejected ("HTLC id " ++ toString u.id ++ " clashes for us") p)
    ∧ (funding_htlc_by_id p.remote_view.staging_cstate u.id .THEIRS = none →
      funding_htlc_by_id p.local_view.staging_cstate u.id .THEIRS = none →
      (accept_pkt_htlc_add p u).isAccepted = true
      ∨ (accept_pkt_htlc_add p u).rejectedMsg
          = some ("Cannot afford " ++ toString u.amount_msat
                  ++ " milli-satoshis in your commitment tx")) := by
  refine ⟨?_, ?_, ?_⟩
  · intro hyou
    unfold accept_pkt_htlc_add
    rw [if_neg h1]
    simp only [h2]
    rw [if_neg (by simp [abs_locktime_is_seconds])]
    rw [if_neg h3]
    rw [if_pos hyou]
  · intro hrem hloc
    unfold accept_pkt_htlc_add
    rw [if_neg h1]
    simp only [h2]
    rw [if_neg (by simp [abs_locktime_is_seconds])]
    rw [if_neg h3]
    rw [if_neg (by simp [hrem])]
    rw [if_pos hloc]
  · intro hrem hloc
    unfold accept_pkt_htlc_add
    rw [if_neg h1]
    simp only [h2]
    rw [if_neg (by simp [abs_locktime_is_seconds])]
    rw [if_neg h3]
    rw [if_neg (by simp [hrem])]
    rw [if_neg (by simp [hloc])]
    cases hadd : funding_add_htlc p.local_view.staging_cstate u.amount_msat (.seconds t)
        u.r_hash u.id .THEIRS with
    | none => exact Or.inr rfl
    | some x => exact Or.inl rfl

/-- Witness for the amended C6 at a concrete input: an add whose id 7 equals
a counterparty HTLC staged in the remote snapshot is rejected with the
id-clash error. -/
theorem accept_pkt_htlc_add_id_clash_only_witness :
    accept_pkt_htlc_add exClashPeer ⟨7, 5, 9, some (.seconds 100)⟩
      = .rejected ("HTLC id " ++ toString 7 ++ " clashes for you") exClashPeer :=
  (accept_pkt_htlc_add_id_clash_only exClashPeer ⟨7, 5, 9, some (.seconds 100)⟩ 100
    (by decide) rfl (by decide)).1 (by rfl)

/-- C3 evaluated at its failing input: an add of 500 msat that the
counterparty cannot afford in the remote staging snapshot (balance 0) is
nevertheless accepted, because `accept_pkt_htlc_add` runs its affordability
check only against `local.staging_cstate`; and `queue_pkt_htlc_add` checks
only `remote.staging_cstate`, crashing on `fatal` rather than rejecting. -/
theorem htlc_add_affordability_single_sided :
    accept_pkt_htlc_add exGapPeer exGapAdd = .accepted exGapResPeer
    ∧ funding_add_htlc exGapPeer.remote_view.staging_cstate exGapAdd.amount_msat
        (.seconds 100) exGapAdd.r_hash exGapAdd.id .THEIRS = none
    ∧ queue_pkt_htlc_add exGapPeer exGapHtlc = .crash := by
  refine ⟨rfl, rfl, rfl⟩
